import Mathlib

/-!
Verification development for the ArthursDen dashboard (src/app.py, src/utils.py).

Python strings are modelled as lists of characters; Python numbers as
Nat / Int / Rat with explicit truncation where the code calls int().
Decimal float literals of the source (0.02, 0.1) are modelled as the exact
rationals they denote; the deviations of binary floating point from those
rationals are noted next to each definition they could affect and do not
affect any theorem below, which are evaluated away from the affected
boundaries.
-/

namespace ArthursDen

/-- A Python string, modelled as its list of characters. -/
abbrev PyStr := List Char

/-- Lift a Lean string literal to the list-of-characters model. -/
def pstr (s : String) : PyStr := s.data

/-- The default whitespace set of the Python str.strip method
(ASCII part; the claims only involve ASCII data). -/
def isPySpace (c : Char) : Bool :=
  c = ' ' || c = '\t' || c = '\n' || c = '\r' || c = '\x0b' || c = '\x0c'

/-- Python str.strip(): drop leading and trailing whitespace. -/
def pyStrip (s : PyStr) : PyStr :=
  ((s.dropWhile isPySpace).reverse.dropWhile isPySpace).reverse

/-- Per-character table of html.escape (quote=True, the default used by
sanitize_text_input): the five special characters become entities, every
other character is kept. -/
def escChar (c : Char) : PyStr :=
  if c = '&' then pstr "&amp;"
  else if c = '<' then pstr "&lt;"
  else if c = '>' then pstr "&gt;"
  else if c = '"' then pstr "&quot;"
  else if c = '\x27' then pstr "&#x27;"
  else [c]

/-- html.escape(s): escape each character in order.  The CPython
implementation replaces the ampersand first and the other four specials
afterwards, which is equivalent to this character-wise map because the
replacement entities contain no character from the set except the
ampersand that heads them. -/
def htmlEscape (s : PyStr) : PyStr := s.flatMap escChar

/-- utils.sanitize_text_input(text, max_length): empty input gives the
empty string, otherwise strip, HTML-escape, and truncate to max_length. -/
def sanitize_text_input (text : PyStr) (maxLength : Nat) : PyStr :=
  if text = [] then []
  else
    let sanitized := htmlEscape (pyStrip text)
    if sanitized.length > maxLength then sanitized.take maxLength else sanitized

/-- An entry of a JSON list handed to the validators: either a Python
string or a value of any other type (the code only tests isinstance str). -/
inductive PyVal
  | str (s : PyStr)
  | other
deriving DecidableEq

/-- Result triple (ok, message, cleaned list) of the list validators. -/
structure Validated where
  ok : Bool
  msg : PyStr
  cleaned : List PyStr
deriving DecidableEq

/-- Decimal digits of a natural number, as a Python-style string. -/
def natToStr (n : Nat) : PyStr := (Nat.repr n).data

/-- The body of the for-loop of utils.validate_search_terms: keep the
sanitized form of each string entry whose cleaned length is at least 2
(a cleaned term of length at least 2 is in particular non-empty, so the
truthiness test of the source is subsumed by the length test). -/
def searchTermStep (acc : List PyStr) (term : PyVal) : List PyStr :=
  match term with
  | PyVal.str s =>
      let cleanTerm := sanitize_text_input s 100
      if 2 ≤ cleanTerm.length then acc ++ [cleanTerm] else acc
  | PyVal.other => acc

/-- utils.validate_search_terms(terms). -/
def validate_search_terms (terms : List PyVal) : Validated :=
  if terms = [] then ⟨true, pstr "No search terms provided", []⟩
  else if terms.length > 20 then ⟨false, pstr "Too many search terms (max 20)", []⟩
  else
    let cleanTerms := terms.foldl searchTermStep []
    if cleanTerms.length = 0 then ⟨false, pstr "No valid search terms found", []⟩
    else ⟨true, pstr "Validated " ++ natToStr cleanTerms.length ++ pstr " search terms", cleanTerms⟩

/-- The cleaning pipeline of validate_search_terms written as the spec
describes it: drop non-strings, sanitize each entry, drop entries shorter
than 2 characters after cleaning. -/
def specSearchClean (terms : List PyVal) : List PyStr :=
  terms.filterMap (fun t =>
    match t with
    | PyVal.str s =>
        let c := sanitize_text_input s 100
        if 2 ≤ c.length then some c else none
    | PyVal.other => none)

/-- The character class kept by the re.sub of utils.validate_shop_names:
alphanumeric, whitespace, hyphen, underscore. -/
def shopClass (c : Char) : Bool :=
  c.isAlpha || c.isDigit || isPySpace c || c = '-' || c = '_'

/-- The body of the for-loop of utils.validate_shop_names: strip the
entry, delete every character outside the class, keep the result truncated
to 50 characters when its length is at least 2. -/
def shopStep (acc : List PyStr) (shop : PyVal) : List PyStr :=
  match shop with
  | PyVal.str s =>
      let cleanShop := (pyStrip s).filter shopClass
      if 2 ≤ cleanShop.length then acc ++ [cleanShop.take 50] else acc
  | PyVal.other => acc

/-- utils.validate_shop_names(shops). -/
def validate_shop_names (shops : List PyVal) : Validated :=
  if shops = [] then ⟨true, pstr "No shop names provided", []⟩
  else if shops.length > 50 then ⟨false, pstr "Too many shops in watchlist (max 50)", []⟩
  else
    let cleanShops := shops.foldl shopStep []
    ⟨true, pstr "Validated " ++ natToStr cleanShops.length ++ pstr " shop names", cleanShops⟩

/-- The cleaning pipeline of validate_shop_names as a filterMap. -/
def specShopClean (shops : List PyVal) : List PyStr :=
  shops.filterMap (fun t =>
    match t with
    | PyVal.str s =>
        let c := (pyStrip s).filter shopClass
        if 2 ≤ c.length then some (c.take 50) else none
    | PyVal.other => none)

/-- The character class of the username pattern [a-zA-Z0-9_-]. -/
def usernameClass (c : Char) : Bool :=
  c.isAlpha || c.isDigit || c = '_' || c = '-'

/-- re.match of the pattern carat [a-zA-Z0-9_-]+ dollar against s, as a
Boolean.  In Python the dollar anchor also matches just before a single
newline at the end of the string, so the call succeeds exactly when the
string, possibly after removing one trailing newline, is a non-empty run
of class characters (a newline is not itself a class character). -/
def reMatchUsername (s : PyStr) : Bool :=
  let t := if s.getLast? = some '\n' then s.dropLast else s
  !t.isEmpty && t.all usernameClass

/-- utils.validate_username(username). -/
def validate_username (username : PyStr) : Bool × PyStr :=
  if username = [] ∨ (pyStrip username).length < 3 then
    (false, pstr "Username must be at least 3 characters")
  else if 50 < username.length then
    (false, pstr "Username must be less than 50 characters")
  else if reMatchUsername username = false then
    (false, pstr "Username can only contain letters, numbers, hyphens, and underscores")
  else
    (true, pstr "Valid username")

/-- The validity condition exactly as the spec words it: length in [3, 50]
and the whole string matches the pattern [A-Za-z0-9_-]+. -/
def specUsernameValid (s : PyStr) : Prop :=
  3 ≤ s.length ∧ s.length ≤ 50 ∧ s ≠ [] ∧ s.all usernameClass = true

instance (s : PyStr) : Decidable (specUsernameValid s) := by
  unfold specUsernameValid; infer_instance

/-! ### Numeric helpers for the app.py arithmetic -/

/-- The Python int() conversion: truncation toward zero. -/
def pyTrunc (q : ℚ) : Int :=
  if q < 0 then -(Int.floor (-q)) else Int.floor q

/-- Round-half-even to an integer, the tie rule of the Python round()
builtin, applied to the exact rational value. -/
def rneInt (q : ℚ) : Int :=
  let f := Int.floor q
  let r := q - (f : ℚ)
  if r < 1/2 then f
  else if (1:ℚ)/2 < r then f + 1
  else if f % 2 = 0 then f else f + 1

/-- Python round(q, 1). -/
def roundQ1 (q : ℚ) : ℚ := (rneInt (10 * q) : ℚ) / 10

/-- Decimal digits of an integer. -/
def intToStr (n : Int) : PyStr :=
  if n < 0 then '-' :: natToStr n.natAbs else natToStr n.natAbs

/-- Thousands grouping over a reversed digit list: emit k more digits
before the next comma, then groups of three. -/
def commaRev : Nat → List Char → List Char
  | _, [] => []
  | 0, c :: cs => ',' :: c :: commaRev 2 cs
  | Nat.succ k, c :: cs => c :: commaRev k cs

/-- Python format spec {n:,} for an integer: thousands separators. -/
def intComma (n : Int) : PyStr :=
  let ds := (commaRev 3 (natToStr n.natAbs).reverse).reverse
  if n < 0 then '-' :: ds else ds

/-- Python format spec {q:.2f} for the non-negative decimal prices of this
program: two fractional digits, ties resolved half-even. -/
def fmt2 (q : ℚ) : PyStr :=
  let c := rneInt (100 * q)
  let frac := (c % 100).natAbs
  intToStr (c / 100) ++ '.' :: (if frac < 10 then '0' :: natToStr frac else natToStr frac)

/-- Python str() of a float that is an exact multiple of 1/10 (the shape
produced by round(x, 1)): one fractional digit is always printed. -/
def fmt1 (q : ℚ) : PyStr :=
  let c := rneInt (10 * q)
  intToStr (c / 10) ++ '.' :: natToStr (c % 10).natAbs

/-- Python str.lower() on the ASCII data of this program. -/
def lowerPy (s : PyStr) : PyStr := s.map Char.toLower

/-- Python substring containment: needle prefix test. -/
def startsWithPy : PyStr → PyStr → Bool
  | [], _ => true
  | _ :: _, [] => false
  | a :: as, b :: bs => a = b && startsWithPy as bs

/-- The Python operator in on strings: needle occurs contiguously in the
haystack (the empty needle always occurs). -/
def subStrPy (needle : PyStr) : PyStr → Bool
  | [] => needle.isEmpty
  | c :: rest => startsWithPy needle (c :: rest) || subStrPy needle rest

/-- Python str.title(): a cased character that follows a non-cased one is
uppercased, a cased character that follows a cased one is lowercased. -/
def pyTitleGo : Bool → List Char → List Char
  | _, [] => []
  | prevAlpha, c :: cs =>
      if c.isAlpha then
        (if prevAlpha then c.toLower else c.toUpper) :: pyTitleGo true cs
      else c :: pyTitleGo false cs

/-- Python str.title() over the ASCII data of this program. -/
def pyTitle (s : PyStr) : PyStr := pyTitleGo false s

/-! ### The data model of app.py

A fetched listing is modelled with the fields that process_etsy_data and
its callers actually read, each already carrying the dict.get default the
source applies on access.  Fields the code copies into the product but
never reads afterwards (description, tags, images, ...) are omitted: no
claim and no embedded control flow depends on them. -/

/-- The Shop sub-object of a listing (dict.get defaults applied). -/
structure ShopInfo where
  shop_name : PyStr
  total_sales : Nat
  currency_code : PyStr
deriving DecidableEq

/-- One listing of the Etsy response (dict.get defaults applied).
amount is the price in minor units, listing price amount in the source. -/
structure Listing where
  amount : Int
  views : Nat
  num_favorers : Nat
  title : PyStr
  url : PyStr
  shop : ShopInfo
deriving DecidableEq

/-- A successful Etsy payload: a dict with a results list. -/
structure EtsyData where
  results : List Listing
deriving DecidableEq

/-- The seller_profile sub-dict of a product (the fields later logic
reads). -/
structure SellerProfile where
  shop_name : PyStr
  currency_code : PyStr
deriving DecidableEq

/-- A product dict.  The shop key exists only on the hardcoded demo
products, never on the dicts built by process_etsy_data, and conversely
priority_score exists only on processed products: both are therefore
Option-valued, a none modelling an absent dict key whose access raises
KeyError. -/
structure Product where
  id : Nat
  title : PyStr
  shop : Option PyStr
  price : ℚ
  currency : PyStr
  views : Nat
  favorites : Nat
  weekly_sales : Nat
  revenue : Int
  sales_trend : PyStr
  market_trend : PyStr
  priority : PyStr
  priority_score : Option ℚ
  etsy_url : PyStr
  search_term : PyStr
  seller_profile : SellerProfile
  watchlist_match : Bool
deriving DecidableEq

/-- The per-listing body of the loop of process_etsy_data, at enumerate
index i.  The floats 0.02 and 0.1 are modelled as 2/100 and 1/10; the or-0
guard of the source on total_sales is the identity on the Nat model. -/
def processListing (i : Nat) (searchTerm : PyStr) (l : Listing) : Product :=
  let price : ℚ := (l.amount : ℚ) / 100
  let views := l.views
  let favorites := l.num_favorers
  let sellerProfile : SellerProfile := ⟨l.shop.shop_name, l.shop.currency_code⟩
  let estimatedWeeklySales : Nat :=
    max 1 (pyTrunc ((views : ℚ) * (2/100) + (favorites : ℚ) * (1/10))).toNat
  let estimatedRevenue : ℚ := (estimatedWeeklySales : ℚ) * price * 4
  let shopScore : ℚ := min 100 ((l.shop.total_sales : ℚ) / 100)
  let engagementScore : ℚ := min 100 (((views : ℚ) + (favorites : ℚ) * 2) / 50)
  let priorityScore : ℚ := (shopScore + engagementScore) / 2
  { id := i + 1
    title := l.title
    shop := none
    price := price
    currency := sellerProfile.currency_code
    views := views
    favorites := favorites
    weekly_sales := estimatedWeeklySales
    revenue := pyTrunc estimatedRevenue
    sales_trend := pstr "+" ++ natToStr (min 50 (max 5 (views / 100))) ++ pstr "%"
    market_trend :=
      if priorityScore > 70 then pstr "Hot"
      else if priorityScore > 40 then pstr "Trending" else pstr "Stable"
    priority :=
      if priorityScore > 70 then pstr "Critical"
      else if priorityScore > 40 then pstr "High" else pstr "Medium"
    priority_score := some (roundQ1 priorityScore)
    etsy_url := l.url
    search_term := searchTerm
    seller_profile := sellerProfile
    watchlist_match := false }

/-- The enumerate loop of process_etsy_data over the first ten results.
The try/except of the source skips a listing whose field reads raise; on
the typed model field reads cannot raise, so the except branch is dead. -/
def processLoop (i : Nat) (searchTerm : PyStr) : List Listing → List Product
  | [] => []
  | l :: ls => processListing i searchTerm l :: processLoop (i + 1) searchTerm ls

/-- app.process_etsy_data(listings_data, search_term): empty for a falsy
payload, otherwise the processed top-10 results. -/
def process_etsy_data (listingsData : Option EtsyData) (searchTerm : PyStr) : List Product :=
  match listingsData with
  | none => []
  | some data => processLoop 0 searchTerm (data.results.take 10)

/-! ### The market-data aggregation of app.get_market_data -/

/-- A Python exception relevant to this code: a missing dict key. -/
inductive PyErr
  | keyError (key : PyStr)
deriving DecidableEq

/-- The dict access product[shop-key]: raises KeyError when the key is
absent. -/
def getShop (p : Product) : Except PyErr PyStr :=
  match p.shop with
  | some s => Except.ok s
  | none => Except.error (PyErr.keyError (pstr "shop"))

/-- The watchlist filter loop of get_market_data (entered only for a
non-empty watchlist): a product is kept and marked watchlist_match when
some watchlist entry, lowercased, occurs in its lowercased shop field;
reading that field raises for products that lack the key. -/
def filterWatch (watchlist : List PyStr) : List Product → Except PyErr (List Product)
  | [] => Except.ok []
  | p :: ps => do
      let shopName ← getShop p
      let rest ← filterWatch watchlist ps
      if watchlist.any (fun w => subStrPy (lowerPy w) (lowerPy shopName)) then
        Except.ok ({ p with watchlist_match := true } :: rest)
      else Except.ok rest

/-- Sum of the revenue fields, as the totals loop accumulates it. -/
def sumRevenue (ps : List Product) : Int := ps.foldl (fun a p => a + p.revenue) 0

/-- Sum of the weekly_sales fields. -/
def sumWeekly (ps : List Product) : Nat := ps.foldl (fun a p => a + p.weekly_sales) 0

/-- Number of products whose priority field is Critical. -/
def countCritical (ps : List Product) : Nat :=
  ps.foldl (fun a p => if p.priority = pstr "Critical" then a + 1 else a) 0

/-- The per-term loop of get_market_data: fetch, process, filter by the
watchlist when one is set, extend the running product list and totals. -/
def gatherTerms (fetch : PyStr → Option EtsyData) (watchlist : List PyStr) :
    List PyStr → Except PyErr (List Product × Int × Nat × Nat)
  | [] => Except.ok ([], 0, 0, 0)
  | term :: rest => do
      let ps ←
        match fetch term with
        | none => Except.ok []
        | some d =>
            let products := process_etsy_data (some d) term
            if watchlist.isEmpty then Except.ok products
            else filterWatch watchlist products
      let (acc, rev, ws, crit) ← gatherTerms fetch watchlist rest
      Except.ok (acc ++ ps, rev + sumRevenue ps, ws + sumWeekly ps, crit + countCritical ps)

/-- The hardcoded UK demo products get_market_data substitutes when the
combined product list comes out empty. -/
def demoProducts : List Product :=
  [ { id := 1, title := pstr "Personalised Baby Milestone Blanket - Monthly...",
      shop := some (pstr "BabyMilestoneUK"), price := (34.99 : ℚ), currency := pstr "GBP",
      views := 1850, favorites := 127, weekly_sales := 23, revenue := 3218,
      sales_trend := pstr "+18%", market_trend := pstr "Hot", priority := pstr "Critical",
      priority_score := none, etsy_url := pstr "https://etsy.com/uk/listing/example1",
      search_term := pstr "milestone baby blanket",
      seller_profile := ⟨pstr "BabyMilestoneUK", pstr "GBP"⟩, watchlist_match := false },
    { id := 2, title := pstr "Custom Nursery Name Sign - Wooden Laser Cut...",
      shop := some (pstr "WoodCraftStudioUK"), price := (29.50 : ℚ), currency := pstr "GBP",
      views := 2140, favorites := 89, weekly_sales := 31, revenue := 3658,
      sales_trend := pstr "+25%", market_trend := pstr "Trending", priority := pstr "High",
      priority_score := none, etsy_url := pstr "https://etsy.com/uk/listing/example2",
      search_term := pstr "custom name sign uk",
      seller_profile := ⟨pstr "WoodCraftStudioUK", pstr "GBP"⟩, watchlist_match := false },
    { id := 3, title := pstr "Baby Shower Decorations Set - Gender Neutral...",
      shop := some (pstr "PartyPerfectUK"), price := (22.99 : ℚ), currency := pstr "GBP",
      views := 1230, favorites := 67, weekly_sales := 19, revenue := 1747,
      sales_trend := pstr "+12%", market_trend := pstr "Stable", priority := pstr "Medium",
      priority_score := none, etsy_url := pstr "https://etsy.com/uk/listing/example3",
      search_term := pstr "baby shower decorations uk",
      seller_profile := ⟨pstr "PartyPerfectUK", pstr "GBP"⟩, watchlist_match := false },
    { id := 4, title := pstr "Nursery Wall Art Print Set - Safari Animals...",
      shop := some (pstr "ModernNurseryArtUK"), price := (12.99 : ℚ), currency := pstr "GBP",
      views := 3450, favorites := 234, weekly_sales := 45, revenue := 2338,
      sales_trend := pstr "+35%", market_trend := pstr "Hot", priority := pstr "Critical",
      priority_score := none, etsy_url := pstr "https://etsy.com/uk/listing/example4",
      search_term := pstr "nursery wall art uk",
      seller_profile := ⟨pstr "ModernNurseryArtUK", pstr "GBP"⟩, watchlist_match := false },
    { id := 5, title := pstr "Bespoke Baby Gift Set - Personalised Bundle...",
      shop := some (pstr "BespokeBabyGiftsUK"), price := (52.50 : ℚ), currency := pstr "GBP",
      views := 890, favorites := 45, weekly_sales := 12, revenue := 2520,
      sales_trend := pstr "+8%", market_trend := pstr "Emerging", priority := pstr "Medium",
      priority_score := none, etsy_url := pstr "https://etsy.com/uk/listing/example5",
      search_term := pstr "bespoke baby gifts",
      seller_profile := ⟨pstr "BespokeBabyGiftsUK", pstr "GBP"⟩, watchlist_match := false } ]

/-- Stable insertion keeping a descending revenue order: walk past
strictly greater elements, insert before the first one that is not. -/
def insertDesc (p : Product) : List Product → List Product
  | [] => [p]
  | q :: qs => if p.revenue < q.revenue then q :: insertDesc p qs else p :: q :: qs

/-- Python sorted(key revenue, reverse): stable descending sort. -/
def sortDesc : List Product → List Product
  | [] => []
  | p :: ps => insertDesc p (sortDesc ps)

/-- One opportunity entry of the insights block. -/
structure Opportunity where
  niche : PyStr
  growth : PyStr
  revenue_potential : PyStr
  action : PyStr
  urgency : PyStr
deriving DecidableEq

/-- One alert entry of the insights block (typ models the type key). -/
structure Alert where
  typ : PyStr
  message : PyStr
  action : PyStr
  revenue_impact : PyStr
  etsy_url : PyStr
deriving DecidableEq

/-- The insights loop over the top products: each Critical one emits one
opportunity and one alert; building the alert reads the shop key of the
product and therefore raises on products that lack it. -/
def buildInsights : List Product → Except PyErr (List Opportunity × List Alert)
  | [] => Except.ok ([], [])
  | p :: ps =>
      if p.priority = pstr "Critical" then do
        let shopName ← getShop p
        let (os, als) ← buildInsights ps
        Except.ok
          ( { niche := pyTitle p.search_term, growth := p.sales_trend,
              revenue_potential := '$' :: intComma p.revenue ++ pstr "/month",
              action := pstr "Target " ++ p.search_term ++ pstr " niche - High demand detected",
              urgency := pstr "Critical" } :: os,
            { typ := pstr "High Opportunity",
              message := p.title ++ pstr " showing strong performance in " ++ p.search_term,
              action := pstr "Analyze " ++ shopName ++ pstr " strategy and create competing product",
              revenue_impact := '$' :: intComma p.revenue ++ pstr "/month potential",
              etsy_url := p.etsy_url } :: als )
      else buildInsights ps

/-- The market_summary dict (the wall-clock last_updated field is
omitted). -/
structure MarketSummary where
  total_revenue : PyStr
  avg_weekly_sales : PyStr
  top_opportunity : PyStr
  critical_alerts : Nat
  market_health : PyStr
deriving DecidableEq

/-- The JSON payload of the market-data route. -/
structure MarketData where
  products : List Product
  market_summary : MarketSummary
  opportunities : List Opportunity
  alerts : List Alert
deriving DecidableEq

/-- The tail of get_market_data after the fetch loop: demo substitution
when the combined list is empty, totals, average, top-3 ranking, insights
and summary.  The average divides exact rationals where the source divides
floats, and rounds half-even as the round builtin does. -/
def finalizeMarket (acc : List Product × Int × Nat × Nat) : Except PyErr MarketData := do
  let (products0, rev0, ws0, crit0) := acc
  let (allProducts, totalRevenue, totalWeekly, criticalAlerts) :=
    if products0.isEmpty then
      (demoProducts, sumRevenue demoProducts, sumWeekly demoProducts, countCritical demoProducts)
    else (products0, rev0, ws0, crit0)
  let avgWeeklySales : PyStr :=
    if allProducts.isEmpty then pstr "0"
    else fmt1 (roundQ1 ((totalWeekly : ℚ) / (allProducts.length : ℚ)))
  let topProducts := (sortDesc allProducts).take 3
  let (opportunities, alerts) ← buildInsights topProducts
  Except.ok
    { products := allProducts
      market_summary :=
        { total_revenue := '$' :: intComma totalRevenue
          avg_weekly_sales := avgWeeklySales
          top_opportunity :=
            match topProducts with
            | [] => pstr "No data"
            | p :: _ => pyTitle p.search_term
          critical_alerts := criticalAlerts
          market_health := if criticalAlerts > 0 then pstr "Excellent" else pstr "Good" }
      opportunities := opportunities
      alerts := alerts }

/-- app.get_market_data, parametrized by the fetch oracle (the session
search terms and watchlist are arguments; authentication and rate limit
wrappers are outside the data path). -/
def get_market_data (fetch : PyStr → Option EtsyData)
    (searchTerms watchlistShops : List PyStr) : Except PyErr MarketData := do
  let acc ← gatherTerms fetch watchlistShops searchTerms
  finalizeMarket acc

/-! ### The CSV adapter of app.export_data -/

/-- A CSV cell the source wraps in double quotes. -/
def quoteCell (s : PyStr) : PyStr := '"' :: s ++ [ '"' ]

/-- The currency symbol of one export row: the pound sign for GBP,
the dollar sign otherwise. -/
def csvSymbol (p : Product) : Char :=
  if p.currency = pstr "GBP" then '£' else '$'

/-- The cells of one export row, in the column order of the header line;
reading the shop key raises for products that lack it. -/
def csvCells (p : Product) : Except PyErr (List PyStr) := do
  let shopName ← getShop p
  Except.ok
    [ quoteCell p.title, quoteCell shopName,
      csvSymbol p :: fmt2 p.price,
      natToStr p.views, natToStr p.favorites, natToStr p.weekly_sales,
      csvSymbol p :: intToStr p.revenue,
      p.priority, p.market_trend,
      quoteCell p.search_term, quoteCell p.etsy_url ]

/-- One export row as the comma-joined line the source writes. -/
def csvLine (p : Product) : Except PyErr PyStr := do
  let cells ← csvCells p
  Except.ok (List.intercalate (pstr ",") cells)

/-! ### The in-memory user map and the admin routes over it -/

/-- One account record of USERS_DB (the fields the modelled operations
touch; the SHA-256 password hash is kept abstract as the raw password
since no claim depends on the hash value). -/
structure UserRec where
  password_hash : PyStr
  role : PyStr
  name : PyStr
  email : PyStr
  search_terms : List PyStr
  watchlist_shops : List PyStr
deriving DecidableEq

/-- The in-memory user map, an association list keyed by username (dict
keys are unique; erasure removes every binding of the key). -/
abbrev UsersDB := List (PyStr × UserRec)

/-- Python: username in USERS_DB. -/
def dbMem (u : PyStr) (db : UsersDB) : Bool := db.any (fun e => e.1 = u)

/-- Python: del USERS_DB[username]. -/
def dbErase (u : PyStr) (db : UsersDB) : UsersDB := db.filter (fun e => e.1 ≠ u)

/-- A JSON response of the admin routes: status code and error or success
message. -/
structure ApiResp where
  status : Nat
  body : PyStr
deriving DecidableEq

/-- app.api_delete_user, over the session flags and the request username:
403 for a caller that is not an authenticated admin, 400 for the admin
username, otherwise delete or 404. -/
def api_delete_user (authenticated : Bool) (userRole : PyStr) (reqUsername : PyStr)
    (db : UsersDB) : ApiResp × UsersDB :=
  if authenticated = false ∨ userRole ≠ pstr "admin" then
    (⟨403, pstr "Admin access required"⟩, db)
  else
    let username := pyStrip reqUsername
    if username = pstr "admin" then (⟨400, pstr "Cannot delete admin user"⟩, db)
    else if dbMem username db then
      (⟨200, pstr "User deleted successfully"⟩, dbErase username db)
    else (⟨404, pstr "User not found"⟩, db)

/-- The default search terms seeded into every new account. -/
def defaultSearchTerms : List PyStr :=
  [ pstr "nursery wall art uk", pstr "personalised baby gifts",
    pstr "custom name sign uk", pstr "wooden name plaque",
    pstr "baby room decor uk" ]

/-- app.create_user: reject an existing username, otherwise insert a
fresh record. -/
def create_user (username password name email role : PyStr) (db : UsersDB) :
    (Bool × PyStr) × UsersDB :=
  if dbMem username db then ((false, pstr "Username already exists"), db)
  else ((true, pstr "User created successfully"),
        db ++ [(username, ⟨password, role, name, email, defaultSearchTerms, []⟩)])

/-- The USERS_DB mutation of app.update_search_terms: overwrite the field
of an existing user, leave the map unchanged otherwise. -/
def dbSetSearchTerms (u : PyStr) (ts : List PyStr) (db : UsersDB) : UsersDB :=
  db.map (fun e => if e.1 = u then (e.1, { e.2 with search_terms := ts }) else e)

/-- The USERS_DB mutation of app.update_watchlist. -/
def dbSetWatchlist (u : PyStr) (ws : List PyStr) (db : UsersDB) : UsersDB :=
  db.map (fun e => if e.1 = u then (e.1, { e.2 with watchlist_shops := ws }) else e)

/-- The seeded USERS_DB of app.py: the one admin account (hash modelled as
the raw password, creation timestamp omitted as wall-clock). -/
def usersDBInit : UsersDB :=
  [ (pstr "admin",
     ⟨pstr "admin123", pstr "admin", pstr "Administrator", pstr "admin@arthursden.com",
      defaultSearchTerms, []⟩) ]

/-! ### Auxiliary predicates and fixtures for the claims -/

/-- The four HTML-special characters other than the ampersand.  After one
pass of html.escape these can no longer occur, so a cleaned term is a
fixpoint of the escape exactly when it contains no ampersand. -/
def htmlSpecialNoAmp (ch : Char) : Bool :=
  ch = '<' || ch = '>' || ch = '"' || ch = '\x27'

/-- The validity condition validate_username actually implements: the
spec pattern on the whole string, or the spec pattern on everything before
one trailing newline that the dollar anchor of re.match tolerates. -/
def amendedUsernameValid (s : PyStr) : Prop :=
  specUsernameValid s ∨
    (s.getLast? = some '\n' ∧ 3 ≤ s.dropLast.length ∧ s.length ≤ 50 ∧
      s.dropLast ≠ [] ∧ s.dropLast.all usernameClass = true)

instance (s : PyStr) : Decidable (amendedUsernameValid s) := by
  unfold amendedUsernameValid; infer_instance

/-- A listing with no views, no favorites and a shop with no sales: the
concrete instance for the zero-signal claim. -/
def zeroListing : Listing :=
  ⟨0, 0, 0, pstr "Listing", pstr "https://etsy.com/uk/listing/z", ⟨pstr "Shop", 0, pstr "GBP"⟩⟩

/-- A fetched listing whose shop is WoodCraftStudioUK, for the watchlist
claim. -/
def woodListing : Listing :=
  ⟨2950, 2140, 89, pstr "Custom Nursery Name Sign - Wooden Laser Cut...",
   pstr "https://etsy.com/uk/listing/example2", ⟨pstr "WoodCraftStudioUK", 1200, pstr "GBP"⟩⟩

/-- A fetch oracle that succeeds on every term with the single
WoodCraftStudioUK listing. -/
def woodFetch : PyStr → Option EtsyData := fun _ => some ⟨[woodListing]⟩

/-- Placeholder view, only used to give the error arm of demoMarketView a
value; finalizeMarket never returns an error on the empty accumulator. -/
def fallbackMarket : MarketData := ⟨[], ⟨[], [], [], 0, []⟩, [], []⟩

/-- The market view the route produces when every fetch failed: the demo
substitution evaluated through the full aggregation tail. -/
def demoMarketView : MarketData :=
  match finalizeMarket ([], 0, 0, 0) with
  | Except.ok mv => mv
  | Except.error _ => fallbackMarket

/-- A product carrying a shop key, price 29.99 and GBP currency, for the
CSV rendering claim. -/
def gbpProduct : Product :=
  { id := 6, title := pstr "Custom Wooden Name Sign",
    shop := some (pstr "CustomWoodCraftsUK"), price := (29.99 : ℚ),
    currency := pstr "GBP", views := 2450, favorites := 127, weekly_sales := 61,
    revenue := 7317, sales_trend := pstr "+24%", market_trend := pstr "Hot",
    priority := pstr "Critical", priority_score := none,
    etsy_url := pstr "https://etsy.com/uk/listing/z",
    search_term := pstr "custom name sign uk",
    seller_profile := ⟨pstr "CustomWoodCraftsUK", pstr "GBP"⟩,
    watchlist_match := false }

/-! ## Helper lemmas -/

theorem mem_processLoop {t : PyStr} {p : Product} :
    ∀ {i : Nat} {ls : List Listing}, p ∈ processLoop i t ls →
      ∃ j l, l ∈ ls ∧ p = processListing j t l := by
  intro i ls
  induction ls generalizing i with
  | nil => intro h; simp [processLoop] at h
  | cons l ls ih =>
      intro h
      rcases List.mem_cons.mp h with h | h
      · exact ⟨i, l, List.mem_cons_self l ls, h⟩
      · obtain ⟨j, l2, hm, hp⟩ := ih h
        exact ⟨j, l2, List.mem_cons_of_mem _ hm, hp⟩

theorem processListing_zero (i : Nat) (t : PyStr) (l : Listing)
    (hv : l.views = 0) (hf : l.num_favorers = 0) (hs : l.shop.total_sales = 0) :
    (processListing i t l).priority_score = some 0 ∧
    (processListing i t l).priority = pstr "Medium" ∧
    (processListing i t l).market_trend = pstr "Stable" ∧
    (processListing i t l).weekly_sales = 1 := by
  unfold processListing
  simp only [hv, hf, hs]
  norm_num [pyTrunc, roundQ1, rneInt, min_def]

/-- C1: on a listing with views 0, favorites 0 and shop total_sales 0,
process_etsy_data derives priority_score 0, tier Medium with trend Stable
and an estimated weekly_sales of 1 (the floor clamp). -/
theorem c1_zero_signal_product (data : EtsyData) (term : PyStr)
    (hz : ∀ l ∈ data.results,
        l.views = 0 ∧ l.num_favorers = 0 ∧ l.shop.total_sales = 0) :
    ∀ p ∈ process_etsy_data (some data) term,
      p.priority_score = some 0 ∧ p.priority = pstr "Medium" ∧
      p.market_trend = pstr "Stable" ∧ p.weekly_sales = 1 := by
  intro p hp
  unfold process_etsy_data at hp
  obtain ⟨j, l, hl, rfl⟩ := mem_processLoop hp
  obtain ⟨hv, hf, hs⟩ := hz l (List.mem_of_mem_take hl)
  exact processListing_zero j term l hv hf hs

theorem c1_witness :
    (processListing 0 (pstr "t") zeroListing).priority_score = some 0 ∧
    (processListing 0 (pstr "t") zeroListing).priority = pstr "Medium" ∧
    (processListing 0 (pstr "t") zeroListing).market_trend = pstr "Stable" ∧
    (processListing 0 (pstr "t") zeroListing).weekly_sales = 1 :=
  c1_zero_signal_product ⟨[zeroListing]⟩ (pstr "t") (by decide)
    (processListing 0 (pstr "t") zeroListing)
    (by
      show processListing 0 (pstr "t") zeroListing ∈
        process_etsy_data (some ⟨[zeroListing]⟩) (pstr "t")
      rw [show process_etsy_data (some ⟨[zeroListing]⟩) (pstr "t")
            = [processListing 0 (pstr "t") zeroListing] from rfl]
      exact List.mem_singleton.mpr rfl)

/-- C7: the sales_trend string of every processed listing is the plus sign
followed by min 50 (max 5 (views / 100)) percent, a value always within
[5, 50] whatever the view count. -/
theorem c7_sales_trend_clamped (i : Nat) (term : PyStr) (l : Listing) :
    (processListing i term l).sales_trend
        = pstr "+" ++ natToStr (min 50 (max 5 (l.views / 100))) ++ pstr "%" ∧
    5 ≤ min 50 (max 5 (l.views / 100)) ∧ min 50 (max 5 (l.views / 100)) ≤ 50 := by
  refine ⟨rfl, ?_, ?_⟩ <;> omega

theorem c7_witness :
    (processListing 0 (pstr "t") woodListing).sales_trend
        = pstr "+" ++ natToStr (min 50 (max 5 (woodListing.views / 100))) ++ pstr "%" ∧
    5 ≤ min 50 (max 5 (woodListing.views / 100)) ∧
    min 50 (max 5 (woodListing.views / 100)) ≤ 50 :=
  c7_sales_trend_clamped 0 (pstr "t") woodListing

/-- C5: the watchlist filter dereferences a shop key that the products
built by process_etsy_data do not carry, so on a successful fetch of a
WoodCraftStudioUK listing with watchlist WoodCraft the route raises
KeyError instead of retaining and marking the product.  The last conjunct
shows the substring test itself would have matched, and the middle one
that the processed product indeed lacks the key. -/
theorem c5_watchlist_key_error :
    get_market_data woodFetch [pstr "custom name sign uk"] [pstr "WoodCraft"]
      = Except.error (PyErr.keyError (pstr "shop")) ∧
    (processListing 0 (pstr "custom name sign uk") woodListing).shop = none ∧
    subStrPy (lowerPy (pstr "WoodCraft")) (lowerPy (pstr "WoodCraftStudioUK")) = true :=
  ⟨rfl, rfl, by decide⟩

/-- C9: the CSV adapter picks the pound sign for currency GBP and the
dollar sign otherwise, and a row for a product priced 29.99 in GBP carries
the price cell £29.99. -/
theorem c9_csv_gbp_price_cell :
    (∀ p : Product, p.currency = pstr "GBP" → csvSymbol p = '£') ∧
    (∀ p : Product, p.currency ≠ pstr "GBP" → csvSymbol p = '$') ∧
    (∀ (p : Product) (s : PyStr), p.shop = some s → p.price = (29.99 : ℚ) →
      p.currency = pstr "GBP" →
      csvCells p = Except.ok [ quoteCell p.title, quoteCell s, pstr "£29.99",
        natToStr p.views, natToStr p.favorites, natToStr p.weekly_sales,
        '£' :: intToStr p.revenue, p.priority, p.market_trend,
        quoteCell p.search_term, quoteCell p.etsy_url ]) := by
  refine ⟨?_, ?_, ?_⟩
  · intro p hc; simp [csvSymbol, hc]
  · intro p hc; simp [csvSymbol, hc]
  · intro p s hs hp hc
    have h1 : (100 : ℚ) * 29.99 = 2999 := by norm_num
    have h2 : rneInt 2999 = 2999 := by
      unfold rneInt
      norm_num
    have hf : fmt2 ((29.99 : ℚ)) = pstr "29.99" := by
      unfold fmt2
      rw [h1, h2]
      decide
    have hsym : csvSymbol p = '£' := by simp [csvSymbol, hc]
    simp [csvCells, getShop, hs, hsym, hp, hf]
    rfl

theorem c9_witness :
    csvCells gbpProduct = Except.ok [ quoteCell gbpProduct.title,
      quoteCell (pstr "CustomWoodCraftsUK"), pstr "£29.99",
      natToStr gbpProduct.views, natToStr gbpProduct.favorites,
      natToStr gbpProduct.weekly_sales, '£' :: intToStr gbpProduct.revenue,
      gbpProduct.priority, gbpProduct.market_trend,
      quoteCell gbpProduct.search_term, quoteCell gbpProduct.etsy_url ] :=
  c9_csv_gbp_price_cell.2.2 gbpProduct (pstr "CustomWoodCraftsUK") rfl rfl rfl

theorem foldl_shopStep (shops : List PyVal) :
    ∀ acc : List PyStr, shops.foldl shopStep acc = acc ++ specShopClean shops := by
  induction shops with
  | nil => intro acc; simp [specShopClean]
  | cons t ts ih =>
      intro acc
      cases t with
      | str s =>
          simp only [List.foldl_cons, shopStep, specShopClean, List.filterMap_cons]
          by_cases hc : 2 ≤ ((pyStrip s).filter shopClass).length
          · simp only [if_pos hc, ih]
            simp [specShopClean]
          · simp only [if_neg hc, ih]
            simp [specShopClean]
      | other =>
          simp only [List.foldl_cons, shopStep, specShopClean, List.filterMap_cons]
          exact ih acc

/-- C10: for every input of at most 50 entries validate_shop_names
reports success and returns the cleaned list of the spec pipeline, even
when that cleaned list is empty for a non-empty input. -/
theorem c10_shop_names_accept (shops : List PyVal) (h : shops.length ≤ 50) :
    (validate_shop_names shops).ok = true ∧
    (validate_shop_names shops).cleaned = specShopClean shops := by
  unfold validate_shop_names
  by_cases h0 : shops = []
  · subst h0; simp [specShopClean]
  · rw [if_neg h0, if_neg (by omega)]
    refine ⟨rfl, ?_⟩
    simpa using foldl_shopStep shops []

theorem c10_witness :
    (validate_shop_names [PyVal.str (pstr "!!")]).ok = true ∧
    (validate_shop_names [PyVal.str (pstr "!!")]).cleaned = [] := by
  have h := c10_shop_names_accept [PyVal.str (pstr "!!")] (by decide)
  exact ⟨h.1, by decide⟩

theorem foldl_searchTermStep (terms : List PyVal) :
    ∀ acc : List PyStr, terms.foldl searchTermStep acc = acc ++ specSearchClean terms := by
  induction terms with
  | nil => intro acc; simp [specSearchClean]
  | cons t ts ih =>
      intro acc
      cases t with
      | str s =>
          simp only [List.foldl_cons, searchTermStep, specSearchClean, List.filterMap_cons]
          by_cases hc : 2 ≤ (sanitize_text_input s 100).length
          · simp only [if_pos hc, ih]
            simp [specSearchClean]
          · simp only [if_neg hc, ih]
            simp [specSearchClean]
      | other =>
          simp only [List.foldl_cons, searchTermStep, specSearchClean, List.filterMap_cons]
          exact ih acc

/-- C3: validate_search_terms enforces the cap of 20 entries, cleans via
the drop-non-strings / sanitize / drop-short pipeline, and fails exactly
when the input was non-empty and the returned clean list is empty. -/
theorem c3_search_terms_contract (terms : List PyVal) :
    ((validate_search_terms terms).ok = false ↔
        terms ≠ [] ∧ (validate_search_terms terms).cleaned = []) ∧
    (terms.length ≤ 20 → (validate_search_terms terms).cleaned = specSearchClean terms) ∧
    (20 < terms.length →
        (validate_search_terms terms).ok = false ∧
        (validate_search_terms terms).cleaned = []) := by
  unfold validate_search_terms
  by_cases h0 : terms = []
  · subst h0; simp [specSearchClean]
  · rw [if_neg h0]
    by_cases h20 : terms.length > 20
    · rw [if_pos h20]
      exact ⟨by simp [h0], fun hle => absurd h20 (by omega), fun _ => ⟨rfl, rfl⟩⟩
    · rw [if_neg h20]
      have hfold : terms.foldl searchTermStep [] = specSearchClean terms := by
        simpa using foldl_searchTermStep terms []
      simp only [hfold]
      by_cases hlen : (specSearchClean terms).length = 0
      · rw [if_pos hlen]
        refine ⟨by simp [h0], fun _ => ?_, fun hgt => absurd hgt (by omega)⟩
        exact (List.length_eq_zero.mp hlen).symm
      · rw [if_neg hlen]
        refine ⟨?_, fun _ => rfl, fun hgt => absurd hgt (by omega)⟩
        constructor
        · intro hfalse; exact absurd hfalse (by simp)
        · rintro ⟨-, hnil⟩
          exact absurd (List.length_eq_zero.mpr hnil) hlen

theorem c3_witness :
    ((validate_search_terms [PyVal.str (pstr "hi")]).ok = false ↔
        [PyVal.str (pstr "hi")] ≠ [] ∧
        (validate_search_terms [PyVal.str (pstr "hi")]).cleaned = []) ∧
    (validate_search_terms [PyVal.str (pstr "hi")]).cleaned
        = specSearchClean [PyVal.str (pstr "hi")] :=
  ⟨(c3_search_terms_contract [PyVal.str (pstr "hi")]).1,
   (c3_search_terms_contract [PyVal.str (pstr "hi")]).2.1 (by decide)⟩

theorem dbMem_erase_ne {a b : PyStr} {db : UsersDB} (hab : a ≠ b)
    (h : dbMem a db = true) : dbMem a (dbErase b db) = true := by
  unfold dbMem dbErase at *
  rw [List.any_eq_true] at *
  obtain ⟨e, he, hea⟩ := h
  refine ⟨e, List.mem_filter.mpr ⟨he, ?_⟩, hea⟩
  have : e.1 = a := by simpa using hea
  simpa [this] using hab

theorem admin_mem_after_delete (auth : Bool) (role req : PyStr) (db : UsersDB)
    (h : dbMem (pstr "admin") db = true) :
    dbMem (pstr "admin") (api_delete_user auth role req db).2 = true := by
  unfold api_delete_user
  dsimp only
  split_ifs with h1 h2 h3
  · exact h
  · exact h
  · exact dbMem_erase_ne (fun he => h2 he.symm) h
  · exact h

theorem delete_admin_username_rejected (auth : Bool) (role req : PyStr) (db : UsersDB)
    (h : pyStrip req = pstr "admin") :
    (api_delete_user auth role req db).2 = db ∧
    ((auth = true ∧ role = pstr "admin") →
        (api_delete_user auth role req db).1.status = 400) ∧
    (¬(auth = true ∧ role = pstr "admin") →
        (api_delete_user auth role req db).1.status = 403) := by
  unfold api_delete_user
  dsimp only
  split_ifs with h1
  · exact ⟨rfl, fun hadm => absurd h1 (by simp [hadm.1, hadm.2]), fun _ => rfl⟩
  · refine ⟨rfl, fun _ => rfl, fun hn => ?_⟩
    exfalso
    apply hn
    constructor
    · cases auth with
      | true => rfl
      | false => exact absurd (Or.inl rfl) h1
    · by_contra hr
      exact h1 (Or.inr hr)

theorem admin_mem_after_create (u p n e r : PyStr) (db : UsersDB)
    (h : dbMem (pstr "admin") db = true) :
    dbMem (pstr "admin") (create_user u p n e r db).2 = true := by
  unfold create_user
  split_ifs with h1
  · exact h
  · unfold dbMem at *
    rw [List.any_eq_true] at *
    obtain ⟨x, hx, hxa⟩ := h
    exact ⟨x, List.mem_append.mpr (Or.inl hx), hxa⟩

theorem dbMem_setSearchTerms (a u : PyStr) (ts : List PyStr) (db : UsersDB) :
    dbMem a (dbSetSearchTerms u ts db) = dbMem a db := by
  unfold dbMem dbSetSearchTerms
  induction db with
  | nil => rfl
  | cons e es ih =>
      simp only [List.map_cons, List.any_cons, ih]
      by_cases he : e.1 = u <;> simp [he]

theorem dbMem_setWatchlist (a u : PyStr) (ws : List PyStr) (db : UsersDB) :
    dbMem a (dbSetWatchlist u ws db) = dbMem a db := by
  unfold dbMem dbSetWatchlist
  induction db with
  | nil => rfl
  | cons e es ih =>
      simp only [List.map_cons, List.any_cons, ih]
      by_cases he : e.1 = u <;> simp [he]

/-- C6: the seeded admin account is never removed.  Deleting the username
admin fails for every caller (403 when the session is not an admin one,
400 otherwise) and leaves the map untouched; the delete, create and both
update operations all preserve membership of admin in the user map. -/
theorem c6_admin_never_deleted :
    (∀ (auth : Bool) (role req : PyStr) (db : UsersDB),
        dbMem (pstr "admin") db = true →
        dbMem (pstr "admin") (api_delete_user auth role req db).2 = true) ∧
    (∀ (auth : Bool) (role req : PyStr) (db : UsersDB), pyStrip req = pstr "admin" →
        (api_delete_user auth role req db).2 = db ∧
        ((auth = true ∧ role = pstr "admin") →
            (api_delete_user auth role req db).1.status = 400) ∧
        (¬(auth = true ∧ role = pstr "admin") →
            (api_delete_user auth role req db).1.status = 403)) ∧
    (∀ (u p n e r : PyStr) (db : UsersDB), dbMem (pstr "admin") db = true →
        dbMem (pstr "admin") (create_user u p n e r db).2 = true) ∧
    (∀ (u : PyStr) (ts : List PyStr) (db : UsersDB),
        dbMem (pstr "admin") (dbSetSearchTerms u ts db) = dbMem (pstr "admin") db) ∧
    (∀ (u : PyStr) (ws : List PyStr) (db : UsersDB),
        dbMem (pstr "admin") (dbSetWatchlist u ws db) = dbMem (pstr "admin") db) :=
  ⟨admin_mem_after_delete, delete_admin_username_rejected, admin_mem_after_create,
   dbMem_setSearchTerms (pstr "admin"), dbMem_setWatchlist (pstr "admin")⟩

theorem c6_witness :
    dbMem (pstr "admin")
        (api_delete_user true (pstr "admin") (pstr "admin") usersDBInit).2 = true ∧
    (api_delete_user true (pstr "admin") (pstr "admin") usersDBInit).1.status = 400 :=
  ⟨c6_admin_never_deleted.1 true (pstr "admin") (pstr "admin") usersDBInit (by decide),
   (c6_admin_never_deleted.2.1 true (pstr "admin") (pstr "admin") usersDBInit
      (by decide)).2.1 ⟨rfl, rfl⟩⟩

theorem gatherTerms_none (fetch : PyStr → Option EtsyData) (w : List PyStr)
    (h : ∀ t, fetch t = none) :
    ∀ ts, gatherTerms fetch w ts = Except.ok ([], 0, 0, 0) := by
  intro ts
  induction ts with
  | nil => rfl
  | cons t ts ih =>
      unfold gatherTerms
      rw [h t, ih]
      rfl

theorem mem_insertDesc {p q : Product} {l : List Product} :
    q ∈ insertDesc p l → q = p ∨ q ∈ l := by
  induction l with
  | nil =>
      intro h
      simp only [insertDesc] at h
      exact Or.inl (List.mem_singleton.mp h)
  | cons r rs ih =>
      intro h
      unfold insertDesc at h
      split_ifs at h with hc
      · rcases List.mem_cons.mp h with h | h
        · exact Or.inr (List.mem_cons.mpr (Or.inl h))
        · rcases ih h with h | h
          · exact Or.inl h
          · exact Or.inr (List.mem_cons_of_mem _ h)
      · rcases List.mem_cons.mp h with h | h
        · exact Or.inl h
        · exact Or.inr h

theorem mem_sortDesc {q : Product} : ∀ {l : List Product}, q ∈ sortDesc l → q ∈ l := by
  intro l
  induction l with
  | nil => intro h; simp [sortDesc] at h
  | cons p ps ih =>
      intro h
      unfold sortDesc at h
      rcases mem_insertDesc h with h | h
      · rw [h]; exact List.mem_cons_self p ps
      · exact List.mem_cons_of_mem _ (ih h)

theorem buildInsights_ok (ps : List Product) (h : ∀ p ∈ ps, p.shop.isSome = true) :
    ∃ x, buildInsights ps = Except.ok x := by
  induction ps with
  | nil => exact ⟨([], []), rfl⟩
  | cons p ps ih =>
      obtain ⟨x, hx⟩ := ih (fun q hq => h q (List.mem_cons_of_mem _ hq))
      unfold buildInsights
      by_cases hc : p.priority = pstr "Critical"
      · rw [if_pos hc]
        obtain ⟨s, hs⟩ := Option.isSome_iff_exists.mp (h p (List.mem_cons_self p ps))
        rw [show getShop p = Except.ok s from by unfold getShop; rw [hs], hx]
        exact ⟨_, rfl⟩
      · rw [if_neg hc]
        exact ⟨x, hx⟩

theorem finalize_empty_spec :
    ∃ mv, finalizeMarket ([], 0, 0, 0) = Except.ok mv ∧
      mv.products = demoProducts ∧
      mv.market_summary.critical_alerts = countCritical demoProducts := by
  have hshops : ∀ p ∈ (sortDesc demoProducts).take 3, p.shop.isSome = true := by
    have hall : ∀ p ∈ demoProducts, p.shop.isSome = true := by decide
    intro p hp
    exact hall p (mem_sortDesc (List.mem_of_mem_take hp))
  obtain ⟨⟨os, als⟩, hb⟩ := buildInsights_ok _ hshops
  unfold finalizeMarket
  dsimp only
  simp only [List.isEmpty_nil, if_true]
  rw [hb]
  exact ⟨_, rfl, rfl, rfl⟩

/-- C4: when the fetch yields no data for every search term, the
market-data route substitutes the fixed demo products: the caller gets a
successful response with a non-empty product list and at least one
critical alert, never an empty list or a hard error. -/
theorem c4_all_fetch_fail_demo (fetch : PyStr → Option EtsyData)
    (searchTerms watchlistShops : List PyStr) (h : ∀ t, fetch t = none) :
    ∃ mv, get_market_data fetch searchTerms watchlistShops = Except.ok mv ∧
      mv.products ≠ [] ∧ 1 ≤ mv.market_summary.critical_alerts := by
  obtain ⟨mv, hmv, hp, hc⟩ := finalize_empty_spec
  refine ⟨mv, ?_, ?_, ?_⟩
  · unfold get_market_data
    rw [gatherTerms_none fetch watchlistShops h searchTerms]
    exact hmv
  · rw [hp]
    unfold demoProducts
    exact List.cons_ne_nil _ _
  · rw [hc]
    decide

theorem c4_witness :
    ∃ mv, get_market_data (fun _ => none) [] [] = Except.ok mv ∧
      mv.products ≠ [] ∧ 1 ≤ mv.market_summary.critical_alerts :=
  c4_all_fetch_fail_demo (fun _ => none) [] [] (fun _ => rfl)

theorem sanitize_length_le (s : PyStr) (m : Nat) :
    (sanitize_text_input s m).length ≤ m := by
  unfold sanitize_text_input
  dsimp only
  split_ifs with h1 h2
  · simp
  · simp [List.length_take]
  · omega

theorem escChar_not_special (c : Char) :
    (escChar c).all (fun ch => !htmlSpecialNoAmp ch) = true := by
  unfold escChar
  split_ifs with h1 h2 h3 h4 h5
  · decide
  · decide
  · decide
  · decide
  · decide
  · simp [htmlSpecialNoAmp, h2, h3, h4, h5]

theorem htmlEscape_not_special (s : PyStr) :
    (htmlEscape s).all (fun ch => !htmlSpecialNoAmp ch) = true := by
  induction s with
  | nil => rfl
  | cons c cs ih =>
      unfold htmlEscape at *
      rw [List.flatMap_cons, List.all_append]
      simp [escChar_not_special c, ih]

theorem sanitize_not_special (s : PyStr) (m : Nat) :
    ∀ ch ∈ sanitize_text_input s m, htmlSpecialNoAmp ch = false := by
  intro ch hch
  have hfromEsc : ∀ ch ∈ htmlEscape (pyStrip s), htmlSpecialNoAmp ch = false := by
    intro d hd
    have hall := htmlEscape_not_special (pyStrip s)
    rw [List.all_eq_true] at hall
    simpa using hall d hd
  unfold sanitize_text_input at hch
  dsimp only at hch
  split_ifs at hch with h1 h2
  · simp at hch
  · exact hfromEsc ch (List.mem_of_mem_take hch)
  · exact hfromEsc ch hch

theorem escChar_eq_self (c : Char) (hamp : c ≠ '&')
    (hsp : htmlSpecialNoAmp c = false) : escChar c = [c] := by
  unfold escChar
  simp only [htmlSpecialNoAmp, Bool.or_eq_false_iff, decide_eq_false_iff_not] at hsp
  rw [if_neg hamp, if_neg hsp.1.1.1, if_neg hsp.1.1.2, if_neg hsp.1.2, if_neg hsp.2]

theorem htmlEscape_eq_self :
    ∀ s : PyStr, (∀ c ∈ s, c ≠ '&' ∧ htmlSpecialNoAmp c = false) → htmlEscape s = s := by
  intro s
  induction s with
  | nil => intro _; rfl
  | cons c cs ih =>
      intro h
      obtain ⟨h1, h2⟩ := h c (List.mem_cons_self c cs)
      unfold htmlEscape
      rw [List.flatMap_cons, escChar_eq_self c h1 h2]
      have hrest := ih (fun d hd => h d (List.mem_cons_of_mem _ hd))
      unfold htmlEscape at hrest
      rw [hrest]
      rfl

theorem sanitize_fixpoint (c : PyStr) (h2 : 2 ≤ c.length) (h100 : c.length ≤ 100)
    (hamp : '&' ∉ c) (hsp : ∀ ch ∈ c, htmlSpecialNoAmp ch = false)
    (hstrip : pyStrip c = c) : sanitize_text_input c 100 = c := by
  have hcne : c ≠ [] := by
    intro hn
    rw [hn] at h2
    simp at h2
  unfold sanitize_text_input
  rw [if_neg hcne, hstrip,
      htmlEscape_eq_self c (fun d hd => ⟨fun he => hamp (he ▸ hd), hsp d hd⟩),
      if_neg (by omega)]

theorem mem_specSearchClean {terms : List PyVal} {c : PyStr}
    (h : c ∈ specSearchClean terms) :
    ∃ s, c = sanitize_text_input s 100 ∧ 2 ≤ c.length := by
  unfold specSearchClean at h
  obtain ⟨t, ht, hc⟩ := List.mem_filterMap.mp h
  cases t with
  | str s =>
      dsimp only at hc
      split_ifs at hc with hlen
      obtain rfl := Option.some.inj hc
      exact ⟨s, rfl, hlen⟩
  | other => simp at hc

theorem cleaned_eq_spec_or_nil (terms : List PyVal) :
    (validate_search_terms terms).cleaned = [] ∨
    ((validate_search_terms terms).cleaned = specSearchClean terms ∧
      terms.length ≤ 20) := by
  unfold validate_search_terms
  by_cases h0 : terms = []
  · subst h0; exact Or.inl rfl
  · rw [if_neg h0]
    by_cases h20 : terms.length > 20
    · rw [if_pos h20]; exact Or.inl rfl
    · rw [if_neg h20]
      have hfold : terms.foldl searchTermStep [] = specSearchClean terms := by
        simpa using foldl_searchTermStep terms []
      simp only [hfold]
      by_cases hlen : (specSearchClean terms).length = 0
      · rw [if_pos hlen]; exact Or.inl rfl
      · rw [if_neg hlen]; exact Or.inr ⟨rfl, by omega⟩

theorem mem_cleaned_spec (terms : List PyVal) :
    ∀ c ∈ (validate_search_terms terms).cleaned,
      2 ≤ c.length ∧ c.length ≤ 100 ∧ ∀ ch ∈ c, htmlSpecialNoAmp ch = false := by
  intro c hc
  rcases cleaned_eq_spec_or_nil terms with hnil | ⟨hspec, -⟩
  · rw [hnil] at hc; simp at hc
  · rw [hspec] at hc
    obtain ⟨s, rfl, h2⟩ := mem_specSearchClean hc
    exact ⟨h2, sanitize_length_le s 100, fun ch hch => sanitize_not_special s 100 ch hch⟩

theorem cleaned_length_le (terms : List PyVal) :
    (validate_search_terms terms).cleaned.length ≤ 20 := by
  rcases cleaned_eq_spec_or_nil terms with h | ⟨h, hlen⟩
  · rw [h]; simp
  · rw [h]
    calc (specSearchClean terms).length ≤ terms.length := List.length_filterMap_le _ _
      _ ≤ 20 := hlen

theorem specSearchClean_map_str :
    ∀ l : List PyStr, (∀ c ∈ l, sanitize_text_input c 100 = c ∧ 2 ≤ c.length) →
      specSearchClean (l.map PyVal.str) = l := by
  intro l
  induction l with
  | nil => intro _; rfl
  | cons c cs ih =>
      intro h
      obtain ⟨hfix, hlen⟩ := h c (List.mem_cons_self c cs)
      have hrest := ih (fun d hd => h d (List.mem_cons_of_mem _ hd))
      unfold specSearchClean at *
      rw [List.map_cons, List.filterMap_cons]
      dsimp only
      rw [hfix, if_pos hlen, hrest]

/-- C2 fails as stated: a term containing an ampersand is escaped again
on the second run, so the clean list is not a fixpoint. -/
theorem c2_counterexample :
    (validate_search_terms [PyVal.str (pstr "a&")]).cleaned = [pstr "a&amp;"] ∧
    (validate_search_terms
        ((validate_search_terms [PyVal.str (pstr "a&")]).cleaned.map PyVal.str)).cleaned
      ≠ (validate_search_terms [PyVal.str (pstr "a&")]).cleaned :=
  ⟨by decide, by decide⟩

/-- C2 amended: validate_search_terms is idempotent on every input whose
returned clean terms contain no ampersand and carry no leading or
trailing whitespace (without the ampersand condition re-escaping changes
the term, and without the whitespace condition a second strip can shorten
a term that truncation left whitespace-ended). -/
theorem c2_idempotent_amended (terms : List PyVal)
    (h : ∀ c ∈ (validate_search_terms terms).cleaned, '&' ∉ c ∧ pyStrip c = c) :
    (validate_search_terms
        ((validate_search_terms terms).cleaned.map PyVal.str)).cleaned
      = (validate_search_terms terms).cleaned := by
  have hfix : ∀ c ∈ (validate_search_terms terms).cleaned,
      sanitize_text_input c 100 = c ∧ 2 ≤ c.length := by
    intro c hc
    obtain ⟨h2, h100, hsp⟩ := mem_cleaned_spec terms c hc
    obtain ⟨hamp, hstrip⟩ := h c hc
    exact ⟨sanitize_fixpoint c h2 h100 hamp hsp hstrip, h2⟩
  set out := (validate_search_terms terms).cleaned with hout
  by_cases h0 : out = []
  · rw [h0]; rfl
  · unfold validate_search_terms
    rw [if_neg (by simpa using h0)]
    rw [if_neg (by
      rw [List.length_map]
      have hl := cleaned_length_le terms
      rw [← hout] at hl
      omega)]
    have hfold : (out.map PyVal.str).foldl searchTermStep [] = out := by
      have hs := specSearchClean_map_str out hfix
      simpa [hs] using foldl_searchTermStep (out.map PyVal.str) []
    simp only [hfold]
    rw [if_neg (fun hl => h0 (List.length_eq_zero.mp hl))]

theorem c2_witness :
    (∀ c ∈ (validate_search_terms [PyVal.str (pstr "hello")]).cleaned,
        '&' ∉ c ∧ pyStrip c = c) ∧
    (validate_search_terms
        ((validate_search_terms [PyVal.str (pstr "hello")]).cleaned.map PyVal.str)).cleaned
      = (validate_search_terms [PyVal.str (pstr "hello")]).cleaned :=
  ⟨by decide, c2_idempotent_amended [PyVal.str (pstr "hello")] (by decide)⟩

theorem class_not_ws (c : Char) (h : usernameClass c = true) : isPySpace c = false := by
  cases hws : isPySpace c
  · rfl
  · exfalso
    have hcs : ((((c = ' ' ∨ c = '\t') ∨ c = '\n') ∨ c = '\x0d') ∨ c = '\x0b') ∨
        c = '\x0c' := by
      simpa [isPySpace] using hws
    rcases hcs with ((((rfl | rfl) | rfl) | rfl) | rfl) | rfl <;>
      simp [usernameClass] at h

theorem dropWhile_eq_of_all_false (p : Char → Bool) (l : PyStr)
    (h : ∀ c ∈ l, p c = false) : l.dropWhile p = l := by
  cases l with
  | nil => rfl
  | cons c cs =>
      rw [List.dropWhile_cons, h c (List.mem_cons_self c cs)]
      simp

theorem pyStrip_all_class (t : PyStr) (h : ∀ c ∈ t, usernameClass c = true) :
    pyStrip t = t := by
  have hws : ∀ c ∈ t, isPySpace c = false := fun c hc => class_not_ws c (h c hc)
  unfold pyStrip
  rw [dropWhile_eq_of_all_false _ _ hws,
      dropWhile_eq_of_all_false _ _ (fun c hc => hws c (List.mem_reverse.mp hc)),
      List.reverse_reverse]

theorem pyStrip_class_newline (t : PyStr) (hne : t ≠ [])
    (h : ∀ c ∈ t, usernameClass c = true) : pyStrip (t ++ ['\n']) = t := by
  have hws : ∀ c ∈ t, isPySpace c = false := fun c hc => class_not_ws c (h c hc)
  obtain ⟨c, t2, rfl⟩ := List.exists_cons_of_ne_nil hne
  unfold pyStrip
  rw [List.cons_append, List.dropWhile_cons, hws c (List.mem_cons_self c t2)]
  have hrev : (c :: (t2 ++ ['\n'])).reverse = '\n' :: (c :: t2).reverse := by
    simp
  simp only [Bool.false_eq_true, if_false]
  rw [hrev, List.dropWhile_cons, if_pos (by decide : isPySpace '\n' = true),
      dropWhile_eq_of_all_false _ _
        (fun d hd => hws d (List.mem_reverse.mp hd)),
      List.reverse_reverse]

theorem validate_username_true_iff (s : PyStr) :
    (validate_username s).1 = true ↔
      (¬(s = [] ∨ (pyStrip s).length < 3) ∧ ¬(50 < s.length) ∧
        reMatchUsername s = true) := by
  unfold validate_username
  split_ifs with h1 h2 h3
  · simp [h1]
  · simp [h1, h2]
  · simp [h1, h2, h3]
  · have hm : reMatchUsername s = true := by
      cases hb : reMatchUsername s
      · exact absurd hb h3
      · rfl
    simp [h1, h2, hm]

/-- C8 fails as stated: a username ending in a newline passes
validate_username because the dollar anchor of re.match also matches just
before a trailing newline, yet the string does not match the claimed
pattern. -/
theorem c8_counterexample :
    (validate_username (pstr "abc\n")).1 = true ∧
    ¬ specUsernameValid (pstr "abc\n") :=
  ⟨by decide, by decide⟩

/-- C8 amended: validate_username accepts exactly the strings of length 3
to 50 matching [A-Za-z0-9_-]+, plus those consisting of such a core of
length 3 to 49 followed by one newline; the four examples of the claim
behave as stated. -/
theorem c8_username_amended :
    (∀ s : PyStr, (validate_username s).1 = true ↔ amendedUsernameValid s) ∧
    (∀ s : PyStr, (validate_username s).1 = false →
        (validate_username s).2 = pstr "Username must be at least 3 characters" ∨
        (validate_username s).2 = pstr "Username must be less than 50 characters" ∨
        (validate_username s).2
          = pstr "Username can only contain letters, numbers, hyphens, and underscores") ∧
    (validate_username (pstr "ab")).1 = false ∧
    (validate_username (pstr "abc")).1 = true ∧
    (validate_username (List.replicate 51 'a')).1 = false ∧
    (validate_username (pstr "bad name!")).1 = false := by
  refine ⟨?_, ?_, by decide, by decide, by decide, by decide⟩
  case refine_2 =>
    intro s hf
    unfold validate_username at *
    split_ifs at hf ⊢ <;> simp_all
  intro s
  rw [validate_username_true_iff]
  unfold amendedUsernameValid specUsernameValid
  by_cases hnl : s.getLast? = some '\n'
  · have hsplit : s.dropLast ++ ['\n'] = s := List.dropLast_append_getLast? _ hnl
    have hsne : s ≠ [] := by
      intro hn
      rw [hn] at hnl
      simp at hnl
    have hlen : s.length = s.dropLast.length + 1 := by
      conv_lhs => rw [← hsplit]
      simp
    have hrm : reMatchUsername s
        = (!s.dropLast.isEmpty && s.dropLast.all usernameClass) := by
      unfold reMatchUsername
      rw [if_pos hnl]
    constructor
    · rintro ⟨hlen3, hlen50, hmatch⟩
      rw [hrm] at hmatch
      rw [Bool.and_eq_true] at hmatch
      obtain ⟨hne2, hall⟩ := hmatch
      have hdne : s.dropLast ≠ [] := by
        intro hn
        rw [hn] at hne2
        simp at hne2
      have hclass : ∀ d ∈ s.dropLast, usernameClass d = true := by
        rw [List.all_eq_true] at hall
        intro d hd
        simpa using hall d hd
      have hstrip : pyStrip s = s.dropLast := by
        conv_lhs => rw [← hsplit]
        exact pyStrip_class_newline _ hdne hclass
      push_neg at hlen3 hlen50
      rw [hstrip] at hlen3
      exact Or.inr ⟨hnl, hlen3.2, hlen50, hdne, hall⟩
    · rintro (⟨h3, h50, hne, hall⟩ | ⟨-, h3, h50, hdne, hall⟩)
      · exfalso
        have hmem : '\n' ∈ s := by
          rw [← hsplit]
          exact List.mem_append.mpr (Or.inr (List.mem_singleton.mpr rfl))
        rw [List.all_eq_true] at hall
        have := hall _ hmem
        simp [usernameClass] at this
      · have hclass : ∀ d ∈ s.dropLast, usernameClass d = true := by
          rw [List.all_eq_true] at hall
          intro d hd
          simpa using hall d hd
        have hstrip : pyStrip s = s.dropLast := by
          conv_lhs => rw [← hsplit]
          exact pyStrip_class_newline _ hdne hclass
        refine ⟨?_, by omega, ?_⟩
        · rintro (hc | hc)
          · exact hsne hc
          · rw [hstrip] at hc
            omega
        · rw [hrm]
          have hie : s.dropLast.isEmpty = false := by
            cases hdl : s.dropLast.isEmpty
            · rfl
            · exact absurd (List.isEmpty_iff.mp hdl) hdne
          simp [hie, hall]
  · have hrm : reMatchUsername s = (!s.isEmpty && s.all usernameClass) := by
      unfold reMatchUsername
      rw [if_neg hnl]
    constructor
    · rintro ⟨hlen3, hlen50, hmatch⟩
      rw [hrm] at hmatch
      rw [Bool.and_eq_true] at hmatch
      obtain ⟨hne2, hall⟩ := hmatch
      have hsne : s ≠ [] := by
        intro hn
        rw [hn] at hne2
        simp at hne2
      have hclass : ∀ d ∈ s, usernameClass d = true := by
        rw [List.all_eq_true] at hall
        intro d hd
        simpa using hall d hd
      have hstrip : pyStrip s = s := pyStrip_all_class s hclass
      push_neg at hlen3 hlen50
      rw [hstrip] at hlen3
      exact Or.inl ⟨hlen3.2, hlen50, hsne, hall⟩
    · rintro (⟨h3, h50, hne, hall⟩ | ⟨hl, -⟩)
      · have hclass : ∀ d ∈ s, usernameClass d = true := by
          rw [List.all_eq_true] at hall
          intro d hd
          simpa using hall d hd
        have hstrip : pyStrip s = s := pyStrip_all_class s hclass
        refine ⟨?_, by omega, ?_⟩
        · rintro (hc | hc)
          · exact hne hc
          · rw [hstrip] at hc
            omega
        · rw [hrm]
          have hie : s.isEmpty = false := by
            cases hdl : s.isEmpty
            · rfl
            · exact absurd (List.isEmpty_iff.mp hdl) hne
          simp [hie, hall]
      · exact absurd hl hnl

theorem c8_witness :
    (validate_username (pstr "john_doe")).1 = true :=
  (c8_username_amended.1 (pstr "john_doe")).mpr (by decide)

end ArthursDen
